import Mathlib

set_option maxHeartbeats 1000000
set_option maxRecDepth 8000

namespace Catena5230

/-!
Shallow embedding of `src/Decoder/catena-message-0x50-port1-decoder-nodered.js`.

Byte buffers are `List (Fin 256)`.  JavaScript numbers produced by the decoder
are modelled by `JSNum`: exact rationals plus the IEEE special values the code
can produce (negative zero, the two infinities and NaN).  All the arithmetic
the decoder performs on finite values is exact in binary64 except for the final
`/ 65535.0` scaling of `rh` and the heat-index polynomial, which we embed as
exact rational / real arithmetic.

JavaScript semantics captured here:
- reading `bytes[i]` past the end of an array yields `undefined` (`Option` is
  `none`); `undefined << k` coerces to `0`, while `x + undefined` is NaN;
- the bitwise operators `&` and `>>` coerce NaN to `0` (`ToInt32(NaN) = 0`);
- `b0 << 24` is a signed 32-bit shift, so a leading byte `≥ 0x80` makes
  `DecodeU32` negative;
- `-0` and multiplications producing signed zeros follow IEEE sign rules.
-/

/-- Model of a JavaScript number as produced by this decoder: a finite exact
value (with `num 0` standing for `+0`), negative zero, the infinities, NaN. -/
inductive JSNum where
| num : ℚ → JSNum
| negZero : JSNum
| posInf : JSNum
| negInf : JSNum
| nan : JSNum
deriving DecidableEq, Repr

/-- IEEE sign of a `JSNum` (`true` = negative); NaN is treated as positive,
which is only used where the source never produces NaN. -/
def JSNum.isNeg : JSNum → Bool
| .num q => decide (q < 0)
| .negZero => true
| .posInf => false
| .negInf => true
| .nan => false

/-- The finite rational value of a `JSNum`, forgetting the sign of zero. -/
def JSNum.finQ : JSNum → Option ℚ
| .num q => some q
| .negZero => some 0
| _ => none

/-- Numeric value of a `JSNum` (negative zero counts as `0`); `none` for the
non-finite values. -/
def JSNum.toRat : JSNum → Option ℚ := JSNum.finQ

/-- JavaScript unary minus. -/
def jsNeg : JSNum → JSNum
| .num q => if q = 0 then .negZero else .num (-q)
| .negZero => .num 0
| .posInf => .negInf
| .negInf => .posInf
| .nan => .nan

/-- JavaScript multiplication (IEEE semantics incl. signed zeros). -/
def jsMul (x y : JSNum) : JSNum :=
  if x = .nan ∨ y = .nan then .nan
  else
    match x.finQ, y.finQ with
    | some q, some r =>
        if q * r = 0 then (if xor x.isNeg y.isNeg then .negZero else .num 0)
        else .num (q * r)
    | some q, none => if q = 0 then .nan else (if xor x.isNeg y.isNeg then .negInf else .posInf)
    | none, some r => if r = 0 then .nan else (if xor x.isNeg y.isNeg then .negInf else .posInf)
    | none, none => if xor x.isNeg y.isNeg then .negInf else .posInf

/-- JavaScript division (IEEE semantics incl. signed zeros and `q / 0`). -/
def jsDiv (x y : JSNum) : JSNum :=
  if x = .nan ∨ y = .nan then .nan
  else
    match x.finQ, y.finQ with
    | some q, some r =>
        if r = 0 then
          (if q = 0 then .nan else (if xor x.isNeg y.isNeg then .negInf else .posInf))
        else if q = 0 then (if xor x.isNeg y.isNeg then .negZero else .num 0)
        else .num (q / r)
    | some _, none => if xor x.isNeg y.isNeg then .negZero else .num 0
    | none, some _ => if xor x.isNeg y.isNeg then .negInf else .posInf
    | none, none => .nan

/-- The parse state of the source: the byte buffer `Parse.bytes` plus the
mutable index `Parse.i`, threaded explicitly. -/
structure Parse where
  bytes : List (Fin 256)
  i : Nat
deriving DecidableEq, Repr

/-- `DecodeU16`: `raw = (bytes[i] << 8) + bytes[i+1]`, then `i += 2`.
An out-of-range `bytes[i]` is `undefined`, which `<<` coerces to `0` while
`+ undefined` gives NaN; so the raw value is NaN (`none`) exactly when
`bytes[i+1]` is out of range (for a contiguous array the mixed case
`bytes[i]` missing / `bytes[i+1]` present cannot occur, but we translate the
expression's JavaScript semantics exactly). -/
def DecodeU16 (p : Parse) : Option Nat × Parse :=
  (match p.bytes[p.i]?, p.bytes[p.i + 1]? with
   | some a, some b => some (a.val * 256 + b.val)
   | some _, none => none
   | none, some b => some b.val
   | none, none => none,
   { p with i := p.i + 2 })

/-- The sign-extension step of `DecodeI16`: `if (Vraw & 0x8000) Vraw += -0x10000`.
`NaN & 0x8000` is `0`, so a NaN raw value is returned unchanged. -/
def i16OfRaw : Option Nat → JSNum
| none => .nan
| some v => .num (((if v &&& 0x8000 ≠ 0 then (v : ℤ) - 0x10000 else (v : ℤ)) : ℤ) : ℚ)

def DecodeI16 (p : Parse) : JSNum × Parse :=
  (i16OfRaw (DecodeU16 p).1, (DecodeU16 p).2)

/-- `DecodeU32`: `(b0 << 24) + (b1 << 16) + (b2 << 8) + b3`, `i += 4`.
`b0 << 24` is a signed 32-bit shift, hence the wrap for `b0 ≥ 0x80`;
any out-of-range byte poisons the sum to NaN (the final `+ bytes[i+3]`
is an ordinary addition with `undefined`). -/
def DecodeU32 (p : Parse) : Option ℤ × Parse :=
  (match p.bytes[p.i]?, p.bytes[p.i + 1]?, p.bytes[p.i + 2]?, p.bytes[p.i + 3]? with
   | some a, some b, some c, some d =>
       some ((if 128 ≤ a.val then (a.val : ℤ) * 16777216 - 4294967296
              else (a.val : ℤ) * 16777216)
             + b.val * 65536 + c.val * 256 + d.val)
   | _, _, _, _ => none,
   { p with i := p.i + 4 })

/-- `DecodeV`: `DecodeI16(Parse) / 4096.0`. -/
def DecodeV (p : Parse) : JSNum × Parse :=
  (jsDiv (DecodeI16 p).1 (.num 4096), (DecodeI16 p).2)

/-- Body of `DecodeUflt16` after the raw `u16` read.  On a NaN raw value the
bitwise operators coerce NaN to `0`, so the NaN case computes with `v = 0`. -/
def uflt16OfRaw (raw : Option Nat) : JSNum :=
  .num ((((raw.getD 0) &&& 0xFFF : Nat) : ℚ) / 4096 * (2 : ℚ) ^ ((((raw.getD 0) >>> 12 : Nat) : ℤ) - 15))

def DecodeUflt16 (p : Parse) : JSNum × Parse :=
  (uflt16OfRaw (DecodeU16 p).1, (DecodeU16 p).2)

/-- Body of `DecodeSflt16` after the raw `u16` read: the `0x8000` special case
returns `-0.0`; otherwise `sign * mant * 2^(exp-15)` with JavaScript sign rules
(a negative sign with a zero mantissa yields `-0`). -/
def sflt16OfRaw (raw : Option Nat) : JSNum :=
  if raw = some 0x8000 then .negZero
  else
    let v : Nat := raw.getD 0
    let sSign : ℚ := if v &&& 0x8000 ≠ 0 then -1 else 1
    let mant1 : ℚ := ((v &&& 0x7FF : Nat) : ℚ) / 2048
    jsMul (jsMul (.num sSign) (.num mant1))
      (.num ((2 : ℚ) ^ ((((v >>> 11) &&& 0xF : Nat) : ℤ) - 15)))

def DecodeSflt16 (p : Parse) : JSNum × Parse :=
  (sflt16OfRaw (DecodeU16 p).1, (DecodeU16 p).2)

/-- `DecodeU24`: `(bytes[i] << 16) + (bytes[i+1] << 8) + bytes[i+2]`, `i += 3`.
As in `DecodeU16`, a missing final byte makes the sum NaN; the unreachable
mixed cases (later byte present, earlier missing) cannot occur on a list. -/
def DecodeU24 (p : Parse) : Option Nat × Parse :=
  (match p.bytes[p.i]?, p.bytes[p.i + 1]?, p.bytes[p.i + 2]? with
   | some a, some b, some c => some (a.val * 65536 + b.val * 256 + c.val)
   | _, _, _ => none,
   { p with i := p.i + 3 })

/-- Body of `DecodeSflt24` after the raw `u24` read: bit 23 sign, bits 22..16
exponent, bits 15..0 explicit mantissa; `E = 0x7F` encodes infinity/NaN;
nonzero exponents get the implicit bit `0x10000`; a zero exponent is a
denormal scaled with exponent 1.  NaN raw values compute with `v = 0`. -/
def sflt24OfRaw (raw : Option Nat) : JSNum :=
  let v : Nat := raw.getD 0
  let bSign : Bool := v &&& 0x800000 ≠ 0
  let uExp : Nat := (v &&& 0x7F0000) >>> 16
  let uMantissa : Nat := v &&& 0x00FFFF
  if uExp = 0x7F then
    (if uMantissa = 0 then (if bSign then .negInf else .posInf) else .nan)
  else
    let em : Nat × Nat := if uExp ≠ 0 then (uExp, uMantissa + 0x010000) else (1, uMantissa)
    let mantissa : JSNum :=
      jsMul (.num ((2 : ℚ) ^ ((em.1 : ℤ) - 63))) (.num ((em.2 : ℚ) / 0x010000))
    if bSign then jsNeg mantissa else mantissa

def DecodeSflt24 (p : Parse) : JSNum × Parse :=
  (sflt24OfRaw (DecodeU24 p).1, (DecodeU24 p).2)

def DecodeLux (p : Parse) : JSNum × Parse := DecodeSflt24 p

/-- `bytes[Parse.i++]`: read one byte (possibly `undefined`) and advance. -/
def readByte (p : Parse) : Option (Fin 256) × Parse :=
  (p.bytes[p.i]?, { p with i := p.i + 1 })

/-- The record built by `Decoder` for an uplink message.  A field is `none`
when the corresponding property was never assigned.  `version` is kept as the
four raw bytes instead of the rendered dotted string; `boot` and `tap` keep
the raw (possibly `undefined`) byte. -/
structure UplinkRecord where
  vBat : Option JSNum := none
  vBus : Option JSNum := none
  vSys : Option JSNum := none
  version : Option (Option (Fin 256) × Option (Fin 256) × Option (Fin 256) × Option (Fin 256)) := none
  boot : Option (Option (Fin 256)) := none
  t : Option JSNum := none
  rh : Option JSNum := none
  lux : Option JSNum := none
  tap : Option (Option (Fin 256)) := none
deriving DecidableEq, Repr

/-- The record built by `DecodeDownlinkResponse`.  `AppVersion` keeps the four
raw version bytes; `Model` is a `JSNum` because an underrun `DecodeU16` makes
it NaN; `UplinkInterval` likewise. -/
structure DownlinkRecord where
  ResponseType : Option String := none
  Response : Option String := none
  AppVersion : Option (Option (Fin 256) × Option (Fin 256) × Option (Fin 256) × Option (Fin 256)) := none
  Model : Option JSNum := none
  Rev : Option String := none
  UplinkInterval : Option JSNum := none
deriving DecidableEq, Repr

/-- The two shapes of a successful `Decoder` result. -/
inductive DecodeResult where
| uplink : UplinkRecord → DecodeResult
| downlink : DownlinkRecord → DecodeResult
deriving DecidableEq, Repr

/-- The status-byte chain repeated in commands 0x03..0x07:
`0 → "Success"`, `1 → "Invalid Length"`, `2 → "Failure"`, anything else
(or a missing byte) leaves `Response` unassigned. -/
def decodeStatus : Option (Fin 256) → Option String
| some r =>
    if r.val = 0 then some "Success"
    else if r.val = 1 then some "Invalid Length"
    else if r.val = 2 then some "Failure"
    else none
| none => none

/-- The revision-letter chain of command 0x03: `0..4 → "A".."E"`, anything
else (or a missing byte) leaves `Rev` unassigned. -/
def revLetter : Option (Fin 256) → Option String
| some r =>
    if r.val = 0 then some "A"
    else if r.val = 1 then some "B"
    else if r.val = 2 then some "C"
    else if r.val = 3 then some "D"
    else if r.val = 4 then some "E"
    else none
| none => none

/-- `DecodeDownlinkResponse(bytes)`: read the command byte at index 0 and
dispatch on it; a command byte outside 0x01..0x07 (including a missing byte,
since `undefined === k` is false) falls through every branch and the empty
`decoded` object is returned. -/
def DecodeDownlinkResponse (bytes : List (Fin 256)) : DownlinkRecord :=
  match bytes[0]? with
  | none => {}
  | some command =>
    if command.val = 0x01 then {}
    else if command.val = 0x02 then {}
    else if command.val = 0x03 then
      let p1 : Parse := ⟨bytes, 1⟩
      let r1 := readByte p1
      let r2 := readByte r1.2
      let r3 := readByte r2.2
      let r4 := readByte r3.2
      let r5 := readByte r4.2
      let r6 := DecodeU16 r5.2
      let r7 := readByte r6.2
      if ¬(r6.1 = some 0) then
        { ResponseType := some "Device Version"
          Response := decodeStatus r1.1
          AppVersion := some (r2.1, r3.1, r4.1, r5.1)
          Model := some (match r6.1 with | some m => .num m | none => .nan)
          Rev := revLetter r7.1 }
      else
        { ResponseType := some "Device Version"
          Response := decodeStatus r1.1
          AppVersion := some (r2.1, r3.1, r4.1, r5.1)
          Model := some (.num 5230)
          Rev := some "Not Found" }
    else if command.val = 0x04 then
      { ResponseType := some "AppEUI Set", Response := decodeStatus (readByte ⟨bytes, 1⟩).1 }
    else if command.val = 0x05 then
      { ResponseType := some "AppKey set", Response := decodeStatus (readByte ⟨bytes, 1⟩).1 }
    else if command.val = 0x06 then
      { ResponseType := some "Rejoin", Response := decodeStatus (readByte ⟨bytes, 1⟩).1 }
    else if command.val = 0x07 then
      let r1 := readByte ⟨bytes, 1⟩
      let r2 := DecodeU32 r1.2
      { ResponseType := some "Uplink Interval"
        Response := decodeStatus r1.1
        UplinkInterval := some (match r2.1 with | some n => .num n | none => .nan) }
    else {}

/-- The `flags & 0x1` block: three Q4.12 voltages. -/
def voltBlock (flags : Nat) (st : UplinkRecord × Parse) : UplinkRecord × Parse :=
  if flags &&& 0x1 ≠ 0 then
    let r1 := DecodeV st.2
    let r2 := DecodeV r1.2
    let r3 := DecodeV r2.2
    ({ st.1 with vBat := some r1.1, vBus := some r2.1, vSys := some r3.1 }, r3.2)
  else st

/-- The `flags & 0x2` block: four version bytes. -/
def versionBlock (flags : Nat) (st : UplinkRecord × Parse) : UplinkRecord × Parse :=
  if flags &&& 0x2 ≠ 0 then
    let r1 := readByte st.2
    let r2 := readByte r1.2
    let r3 := readByte r2.2
    let r4 := readByte r3.2
    ({ st.1 with version := some (r1.1, r2.1, r3.1, r4.1) }, r4.2)
  else st

/-- The `flags & 0x4` block: one boot-counter byte. -/
def bootBlock (flags : Nat) (st : UplinkRecord × Parse) : UplinkRecord × Parse :=
  if flags &&& 0x4 ≠ 0 then
    let r1 := readByte st.2
    ({ st.1 with boot := some r1.1 }, r1.2)
  else st

/-- The `flags & 0x8` block: `t = DecodeI16`, `rh = DecodeUflt16 * 100 / 65535.0`. -/
def trhBlock (flags : Nat) (st : UplinkRecord × Parse) : UplinkRecord × Parse :=
  if flags &&& 0x8 ≠ 0 then
    let r1 := DecodeI16 st.2
    let r2 := DecodeUflt16 r1.2
    ({ st.1 with t := some r1.1, rh := some (jsDiv (jsMul r2.1 (.num 100)) (.num 65535)) }, r2.2)
  else st

/-- The `flags & 0x10` block: one Sflt24 lux value. -/
def luxBlock (flags : Nat) (st : UplinkRecord × Parse) : UplinkRecord × Parse :=
  if flags &&& 0x10 ≠ 0 then
    let r1 := DecodeLux st.2
    ({ st.1 with lux := some r1.1 }, r1.2)
  else st

/-- The `flags & 0x20` block: `decoded.tap = bytes[Parse.i]` — the byte is read
at the current index and the index is NOT advanced (no `++` in the source). -/
def tapBlock (flags : Nat) (st : UplinkRecord × Parse) : UplinkRecord × Parse :=
  if flags &&& 0x20 ≠ 0 then
    ({ st.1 with tap := some st.2.bytes[st.2.i]? }, st.2)
  else st

/-- The six bitmap-gated blocks of the uplink decoder, in source order. -/
def uplinkBlocks (flags : Nat) (st : UplinkRecord × Parse) : UplinkRecord × Parse :=
  tapBlock flags (luxBlock flags (trhBlock flags (bootBlock flags
    (versionBlock flags (voltBlock flags st)))))

/-- The uplink body of `Decoder` after the format-tag check: fetch the bitmap
`flags = bytes[1]` (index 1, leaving `i = 2`; a missing bitmap byte is
`undefined`, which every `flags & bit` coerces to `0`) and run the six
bitmap-gated blocks in order.  Returns the built record together with the
final parse state. -/
def decodeUplinkBody (bytes : List (Fin 256)) : UplinkRecord × Parse :=
  let flags : Nat := (bytes[1]?.elim 0 Fin.val)
  uplinkBlocks flags ({}, ⟨bytes, 2⟩)

/-- `Decoder(bytes, port)`: port 3 goes to `DecodeDownlinkResponse`
unconditionally; a port outside 1/3/4 returns `null`; ports 1 and 4 require
`bytes[0] === 0x50` (a missing byte is `undefined`, which fails the check)
and then run the uplink decode. -/
def Decoder (bytes : List (Fin 256)) (port : ℤ) : Option DecodeResult :=
  if port = 3 then some (.downlink (DecodeDownlinkResponse bytes))
  else if ¬(port = 1) ∧ ¬(port = 3) ∧ ¬(port = 4) then none
  else
    match bytes[0]? with
    | some uFormat =>
        if uFormat = (0x50 : Fin 256) then some (.uplink (decodeUplinkBody bytes).1)
        else none
    | none => none

/-- Bytes consumed (cursor advance past the bitmap) by the set bitmap bits:
6 for the voltages, 4 for the version, 1 for boot, 4 for t+rh, 3 for lux and
0 for tap (its read does not advance the cursor). -/
def uplinkConsumed (flags : Nat) : Nat :=
  (if flags &&& 0x1 ≠ 0 then 6 else 0) + (if flags &&& 0x2 ≠ 0 then 4 else 0)
  + (if flags &&& 0x4 ≠ 0 then 1 else 0) + (if flags &&& 0x8 ≠ 0 then 4 else 0)
  + (if flags &&& 0x10 ≠ 0 then 3 else 0)

/-- Bytes the selected field groups require to be present (tap needs its one
byte even though the cursor is not advanced past it). -/
def uplinkNeeded (flags : Nat) : Nat :=
  uplinkConsumed flags + (if flags &&& 0x20 ≠ 0 then 1 else 0)

/-- The NWS simplified heat-index estimate
`0.5 * (t + 61.0 + ((t - 68.0) * 1.2) + (rh * 0.094))`. -/
def tHeatEasy (t rh : ℝ) : ℝ := 0.5 * (t + 61.0 + ((t - 68.0) * 1.2) + (rh * 0.094))

open scoped Classical in
/-- `CalculateHeatIndex(t, rh)`: reject inputs with `round(t)` outside
`[76,126]` or `rh` outside `[0,100]`; return the simple estimate when
`(tHeatEasy + t) < 160`; otherwise the regression polynomial plus the NWS
adjustment terms, rejecting results `≥ 183.5`. -/
noncomputable def CalculateHeatIndex (t rh : ℝ) : Option ℝ :=
  let tRounded : ℤ := ⌊t + 0.5⌋
  if tRounded < 76 ∨ 126 < tRounded then none
  else if rh < 0 ∨ 100 < rh then none
  else if tHeatEasy t rh + t < 160.0 then some (tHeatEasy t rh)
  else
    let t2 := t * t
    let rh2 := rh * rh
    let tResult :=
      -42.379 + (2.04901523 * t) + (10.14333127 * rh) + (-0.22475541 * t * rh)
      + (-0.00683783 * t2) + (-0.05481717 * rh2) + (0.00122874 * t2 * rh)
      + (0.00085282 * t * rh2) + (-0.00000199 * t2 * rh2)
    let tAdjust : ℝ :=
      if rh < 13.0 ∧ 80.0 ≤ t ∧ t ≤ 112.0 then
        -((13.0 - rh) / 4.0) * Real.sqrt ((17.0 - |t - 95.0|) / 17.0)
      else if rh > 85.0 ∧ 80.0 ≤ t ∧ t ≤ 87.0 then
        ((rh - 85.0) / 10.0) * ((87.0 - t) / 5.0)
      else 0
    if tResult + tAdjust ≥ 183.5 then none
    else some (tResult + tAdjust)

/-! ### Helper lemmas -/

@[simp] lemma DecodeU16_parse (p : Parse) : (DecodeU16 p).2 = { p with i := p.i + 2 } := rfl

@[simp] lemma DecodeI16_parse (p : Parse) : (DecodeI16 p).2 = { p with i := p.i + 2 } := rfl

@[simp] lemma DecodeV_parse (p : Parse) : (DecodeV p).2 = { p with i := p.i + 2 } := rfl

@[simp] lemma DecodeUflt16_parse (p : Parse) : (DecodeUflt16 p).2 = { p with i := p.i + 2 } := rfl

@[simp] lemma DecodeU24_parse (p : Parse) : (DecodeU24 p).2 = { p with i := p.i + 3 } := rfl

@[simp] lemma DecodeSflt24_parse (p : Parse) : (DecodeSflt24 p).2 = { p with i := p.i + 3 } := rfl

@[simp] lemma DecodeLux_parse (p : Parse) : (DecodeLux p).2 = { p with i := p.i + 3 } := rfl

@[simp] lemma readByte_parse (p : Parse) : (readByte p).2 = { p with i := p.i + 1 } := rfl

lemma DecodeU16_oob (p : Parse) (h : p.bytes.length ≤ p.i) : (DecodeU16 p).1 = none := by
  have h1 : p.bytes[p.i]? = none := List.getElem?_eq_none h
  have h2 : p.bytes[p.i + 1]? = none := List.getElem?_eq_none (by omega)
  simp [DecodeU16, h1, h2]

lemma DecodeU16_lt (p : Parse) (v : Nat) (h : (DecodeU16 p).1 = some v) : v < 65536 := by
  rcases h1 : p.bytes[p.i]? with _ | a <;> rcases h2 : p.bytes[p.i + 1]? with _ | b <;>
    simp [DecodeU16, h1, h2] at h
  · omega
  · have := a.isLt
    have := b.isLt
    omega

lemma decodeStatus_mem (b : Option (Fin 256)) (s : String) (h : decodeStatus b = some s) :
    s = "Success" ∨ s = "Invalid Length" ∨ s = "Failure" := by
  rcases b with _ | r
  · simp [decodeStatus] at h
  · simp only [decodeStatus] at h
    split_ifs at h <;> simp_all

lemma trhBlock_t (flags : Nat) (st : UplinkRecord × Parse) (h : flags &&& 0x8 ≠ 0) :
    (trhBlock flags st).1.t = some (i16OfRaw (DecodeU16 st.2).1) := by
  simp [trhBlock, h, DecodeI16]

lemma trhBlock_rh (flags : Nat) (st : UplinkRecord × Parse) (h : flags &&& 0x8 ≠ 0) :
    (trhBlock flags st).1.rh
      = some (jsDiv (jsMul (uflt16OfRaw (DecodeU16 (DecodeI16 st.2).2).1) (.num 100))
          (.num 65535)) := by
  simp [trhBlock, h, DecodeUflt16]

lemma luxBlock_t (flags : Nat) (st : UplinkRecord × Parse) :
    (luxBlock flags st).1.t = st.1.t := by
  unfold luxBlock
  split <;> rfl

lemma tapBlock_t (flags : Nat) (st : UplinkRecord × Parse) :
    (tapBlock flags st).1.t = st.1.t := by
  unfold tapBlock
  split <;> rfl

lemma luxBlock_rh (flags : Nat) (st : UplinkRecord × Parse) :
    (luxBlock flags st).1.rh = st.1.rh := by
  unfold luxBlock
  split <;> rfl

lemma tapBlock_rh (flags : Nat) (st : UplinkRecord × Parse) :
    (tapBlock flags st).1.rh = st.1.rh := by
  unfold tapBlock
  split <;> rfl

lemma pre_trh_state (flags : Nat) (bytes : List (Fin 256)) :
    (bootBlock flags (versionBlock flags (voltBlock flags
        (({} : UplinkRecord), (⟨bytes, 2⟩ : Parse))))).2.bytes = bytes
    ∧ 2 ≤ (bootBlock flags (versionBlock flags (voltBlock flags
        (({} : UplinkRecord), (⟨bytes, 2⟩ : Parse))))).2.i := by
  unfold bootBlock versionBlock voltBlock
  split_ifs <;> constructor <;> simp

lemma decodeUplinkBody_eq (bytes : List (Fin 256)) (f : Fin 256) (hf : bytes[1]? = some f) :
    decodeUplinkBody bytes = uplinkBlocks f.val ({}, ⟨bytes, 2⟩) := by
  simp [decodeUplinkBody, hf]

lemma uplinkBlocks_t (flags : Nat) (st : UplinkRecord × Parse) (h : flags &&& 0x8 ≠ 0) :
    (uplinkBlocks flags st).1.t
      = some (i16OfRaw (DecodeU16
          (bootBlock flags (versionBlock flags (voltBlock flags st))).2).1) := by
  unfold uplinkBlocks
  rw [tapBlock_t, luxBlock_t, trhBlock_t _ _ h]

lemma uplinkBlocks_rh (flags : Nat) (st : UplinkRecord × Parse) (h : flags &&& 0x8 ≠ 0) :
    (uplinkBlocks flags st).1.rh
      = some (jsDiv (jsMul (uflt16OfRaw (DecodeU16 (DecodeI16
          (bootBlock flags (versionBlock flags (voltBlock flags st))).2).2).1)
            (.num 100)) (.num 65535)) := by
  unfold uplinkBlocks
  rw [tapBlock_rh, luxBlock_rh, trhBlock_rh _ _ h]

lemma uflt16_bounds (raw : Option Nat) (hv : ∀ v, raw = some v → v < 65536) :
    ∃ q : ℚ, uflt16OfRaw raw = .num q ∧ 0 ≤ q ∧ q ≤ 4095 / 4096 := by
  rcases raw with _ | v
  · refine ⟨_, rfl, by norm_num, by norm_num⟩
  · have hv16 : v < 65536 := hv v rfl
    refine ⟨_, rfl, by positivity, ?_⟩
    have hm : v &&& 4095 ≤ 4095 := Nat.and_le_right
    have hmq : ((v &&& 4095 : ℕ) : ℚ) ≤ 4095 := by exact_mod_cast hm
    have he : v >>> 12 ≤ 15 := by
      rw [Nat.shiftRight_eq_div_pow]
      omega
    have h2 : (2 : ℚ) ^ (((v >>> 12 : ℕ) : ℤ) - 15) ≤ 1 := by
      refine zpow_le_one_of_nonpos₀ (by norm_num) ?_
      have : ((v >>> 12 : ℕ) : ℤ) ≤ 15 := by exact_mod_cast he
      omega
    have hnn : (0 : ℚ) ≤ ((v &&& 4095 : ℕ) : ℚ) / 4096 := by positivity
    calc ((v &&& 0xFFF : ℕ) : ℚ) / 4096 * (2 : ℚ) ^ (((v >>> 12 : ℕ) : ℤ) - 15)
        ≤ ((v &&& 0xFFF : ℕ) : ℚ) / 4096 * 1 := mul_le_mul_of_nonneg_left h2 hnn
      _ = ((v &&& 0xFFF : ℕ) : ℚ) / 4096 := mul_one _
      _ ≤ 4095 / 4096 := by
          gcongr

lemma rh_scale (q : ℚ) (h0 : 0 ≤ q) :
    jsDiv (jsMul (.num q) (.num 100)) (.num 65535) = .num (q * 100 / 65535) := by
  have f1 : ¬((100 : ℚ) < 0) := by norm_num
  have f2 : ¬((65535 : ℚ) < 0) := by norm_num
  have f3 : ¬((65535 : ℚ) = 0) := by norm_num
  by_cases hq : q = 0
  · subst hq
    simp [jsMul, jsDiv, JSNum.finQ, JSNum.isNeg, f1, f2, f3]
  · have hq100 : ¬(q * 100 = 0) := by
      intro h
      rcases mul_eq_zero.mp h with h | h
      · exact hq h
      · norm_num at h
    simp [jsMul, jsDiv, JSNum.finQ, JSNum.isNeg, f1, f2, f3, hq100]

lemma and_shiftLeft_shiftRight (x a k : Nat) : (x &&& (a <<< k)) >>> k = (x >>> k) &&& a := by
  apply Nat.eq_of_testBit_eq
  intro i
  simp only [Nat.testBit_shiftRight, Nat.testBit_and, Nat.testBit_shiftLeft]
  have h1 : k ≤ k + i := Nat.le_add_right k i
  simp [h1, Nat.add_sub_cancel_left]

lemma raw24_sign (b0 b1 b2 : Fin 256) :
    (b0.val * 65536 + b1.val * 256 + b2.val) &&& 0x800000
      = if 128 ≤ b0.val then 0x800000 else 0 := by
  have h0 := b0.isLt
  have h1 := b1.isLt
  have h2 := b2.isLt
  rw [show (0x800000 : ℕ) = 2 ^ 23 by norm_num, Nat.and_two_pow, Nat.testBit_to_div_mod]
  have hp : (2 : ℕ) ^ 23 = 8388608 := by norm_num
  by_cases hs : 128 ≤ b0.val
  · have hd : (b0.val * 65536 + b1.val * 256 + b2.val) / 8388608 % 2 = 1 := by omega
    simp [hp, hd, hs]
  · have hd : (b0.val * 65536 + b1.val * 256 + b2.val) / 8388608 % 2 = 0 := by omega
    simp [hp, hd, hs]

lemma raw24_exp (b0 b1 b2 : Fin 256) :
    ((b0.val * 65536 + b1.val * 256 + b2.val) &&& 0x7F0000) >>> 16 = b0.val % 128 := by
  have h1 := b1.isLt
  have h2 := b2.isLt
  rw [show (0x7F0000 : ℕ) = 127 <<< 16 by decide, and_shiftLeft_shiftRight,
    Nat.shiftRight_eq_div_pow]
  have hdiv : (b0.val * 65536 + b1.val * 256 + b2.val) / 2 ^ 16 = b0.val := by
    have hp : (2 : ℕ) ^ 16 = 65536 := by norm_num
    rw [hp]
    omega
  rw [hdiv, show (127 : ℕ) = 2 ^ 7 - 1 by norm_num, Nat.and_pow_two_sub_one_eq_mod]

lemma raw24_mant (b0 b1 b2 : Fin 256) :
    (b0.val * 65536 + b1.val * 256 + b2.val) &&& 0xFFFF = b1.val * 256 + b2.val := by
  have h1 := b1.isLt
  have h2 := b2.isLt
  rw [show (0xFFFF : ℕ) = 2 ^ 16 - 1 by norm_num, Nat.and_pow_two_sub_one_eq_mod]
  have hp : (2 : ℕ) ^ 16 = 65536 := by norm_num
  rw [hp]
  omega

lemma jsMul_num (a b : ℚ) (h : ¬(a * b = 0)) : jsMul (.num a) (.num b) = .num (a * b) := by
  simp [jsMul, JSNum.finQ, h]

lemma jsMul_num_zero (a b : ℚ) (ha : 0 ≤ a) (hb : 0 ≤ b) (h : a * b = 0) :
    jsMul (.num a) (.num b) = .num 0 := by
  have hna : ¬(a < 0) := not_lt.mpr ha
  have hnb : ¬(b < 0) := not_lt.mpr hb
  simp [jsMul, JSNum.finQ, JSNum.isNeg, h, hna, hnb]

lemma jsNeg_num (a : ℚ) (h : ¬(a = 0)) : jsNeg (.num a) = .num (-a) := by
  simp [jsNeg, h]

lemma floor_90_5 : (⌊(90 : ℝ) + 0.5⌋ : ℤ) = 90 :=
  Int.floor_eq_iff.mpr ⟨by norm_num, by norm_num⟩

lemma tHeatEasy_90_50 : tHeatEasy 90 50 = 91.05 := by
  unfold tHeatEasy
  norm_num

lemma heatIndex_90_50_eval : CalculateHeatIndex 90 50 = some 94.5969412 := by
  simp only [CalculateHeatIndex]
  rw [floor_90_5]
  rw [if_neg (by norm_num), if_neg (by norm_num),
    if_neg (by rw [tHeatEasy_90_50]; norm_num),
    if_neg (by norm_num), if_neg (by norm_num), if_neg (by norm_num)]
  norm_num

/-! ### Claims -/

/-- Claim C5: the dispatcher routes selector 3 to the downlink-response
decoder unconditionally, rejects every selector outside 1/3/4, and for
selectors 1 and 4 rejects any buffer whose first byte is not the format tag
0x50, otherwise running the uplink record decoder. -/
theorem C5_dispatch (bytes : List (Fin 256)) (port : ℤ) :
    (Decoder bytes 3 = some (DecodeResult.downlink (DecodeDownlinkResponse bytes)))
    ∧ (¬(port = 1 ∨ port = 3 ∨ port = 4) → Decoder bytes port = none)
    ∧ ((port = 1 ∨ port = 4) →
        (bytes[0]? ≠ some (0x50 : Fin 256) → Decoder bytes port = none)
        ∧ (bytes[0]? = some (0x50 : Fin 256) →
            Decoder bytes port = some (DecodeResult.uplink (decodeUplinkBody bytes).1))) := by
  refine ⟨by simp [Decoder], fun h => ?_, fun hp => ⟨fun hne => ?_, fun he => ?_⟩⟩
  · have h1 : ¬(port = 1) := fun e => h (Or.inl e)
    have h3 : ¬(port = 3) := fun e => h (Or.inr (Or.inl e))
    have h4 : ¬(port = 4) := fun e => h (Or.inr (Or.inr e))
    simp [Decoder, h1, h3, h4]
  · rcases hp with rfl | rfl <;>
      · rcases hb : bytes[0]? with _ | f
        · simp [Decoder, hb]
        · have hf : ¬(f = (0x50 : Fin 256)) := by
            intro e
            exact hne (by rw [hb, e])
          simp [Decoder, hb, hf]
  · rcases hp with rfl | rfl <;> simp [Decoder, he]

/-- Witness for C5 at selector 2: not decodable. -/
theorem C5_dispatch_witness : Decoder [] 2 = none :=
  (C5_dispatch [] 2).2.1 (by decide)

/-- Claim C8: `DecodeSflt16` at any cursor positioned on the byte pattern
`0x80 0x00` (raw `0x8000`) returns negative zero exactly — which is distinct
from positive zero — and advances the cursor by 2. -/
theorem C8_sflt16_negZero (bytes : List (Fin 256)) (i : Nat)
    (h1 : bytes[i]? = some (0x80 : Fin 256)) (h2 : bytes[i + 1]? = some (0x00 : Fin 256)) :
    (DecodeSflt16 ⟨bytes, i⟩).1 = JSNum.negZero
    ∧ JSNum.negZero ≠ JSNum.num 0
    ∧ (DecodeSflt16 ⟨bytes, i⟩).2.i = i + 2 := by
  refine ⟨?_, by decide, rfl⟩
  have hraw : (DecodeU16 ⟨bytes, i⟩).1 = some 0x8000 := by
    simp only [DecodeU16, h1, h2]
    decide
  simp [DecodeSflt16, hraw, sflt16OfRaw]

/-- Witness for C8 on the two-byte buffer `0x80 0x00`. -/
theorem C8_sflt16_negZero_witness :
    (DecodeSflt16 ⟨[(0x80 : Fin 256), 0x00], 0⟩).1 = JSNum.negZero :=
  (C8_sflt16_negZero [(0x80 : Fin 256), 0x00] 0 rfl rfl).1

/-- Claim C2 counterexample: a downlink-response buffer with the unrecognized
command byte 0x08 does not fail — `Decoder` on port 3 silently succeeds with
an empty record, the very same record produced for the valid command 0x01, so
the result is not distinguishable from every valid record and there is no
`UnrecognizedCommand` failure. -/
theorem C2_counterexample :
    DecodeDownlinkResponse [(0x08 : Fin 256)] = ({} : DownlinkRecord)
    ∧ DecodeDownlinkResponse [(0x01 : Fin 256)] = ({} : DownlinkRecord)
    ∧ Decoder [(0x08 : Fin 256)] 3
        = some (DecodeResult.downlink ({} : DownlinkRecord)) := by
  refine ⟨rfl, rfl, rfl⟩

/-- Claim C2 amended: a downlink-response buffer whose command byte is outside
0x01..0x07 yields the empty record — identical to the result for the
recognized commands 0x01 and 0x02 — rather than any failure result. -/
theorem C2_unknown_command_empty (bytes : List (Fin 256)) (c : Fin 256)
    (h0 : bytes[0]? = some c) (hc : ¬(1 ≤ c.val ∧ c.val ≤ 7)) :
    DecodeDownlinkResponse bytes = ({} : DownlinkRecord)
    ∧ DecodeDownlinkResponse bytes = DecodeDownlinkResponse [(0x01 : Fin 256)] := by
  have h1 : ¬(c.val = 1) := by omega
  have h2 : ¬(c.val = 2) := by omega
  have h3 : ¬(c.val = 3) := by omega
  have h4 : ¬(c.val = 4) := by omega
  have h5 : ¬(c.val = 5) := by omega
  have h6 : ¬(c.val = 6) := by omega
  have h7 : ¬(c.val = 7) := by omega
  have he : DecodeDownlinkResponse bytes = ({} : DownlinkRecord) := by
    simp [DecodeDownlinkResponse, h0, h1, h2, h3, h4, h5, h6, h7]
  exact ⟨he, by rw [he]; rfl⟩

/-- Witness for the amended C2 at command byte 0x08. -/
theorem C2_unknown_command_empty_witness :
    DecodeDownlinkResponse [(0x08 : Fin 256)] = ({} : DownlinkRecord) :=
  (C2_unknown_command_empty [(0x08 : Fin 256)] 0x08 rfl (by decide)).1

/-- Claim C7 counterexample: command 0x01 is a recognized command
(it is in 0x01..0x07), yet its decoded record contains no `ResponseType`
discriminator at all. -/
theorem C7_counterexample :
    (DecodeDownlinkResponse [(0x01 : Fin 256)]).ResponseType = none := rfl

/-- Claim C7 amended: for the recognized commands 0x03..0x07 the decoded
record always contains a `ResponseType` discriminator, and whenever a
`Response` status string is present it is one of "Success", "Invalid Length"
or "Failure"; commands 0x01 and 0x02 produce an empty record with neither
field. -/
theorem C7_response_fields (bytes : List (Fin 256)) (c : Fin 256)
    (h0 : bytes[0]? = some c) (hlo : 3 ≤ c.val) (hhi : c.val ≤ 7) :
    (DecodeDownlinkResponse bytes).ResponseType.isSome = true
    ∧ ∀ s, (DecodeDownlinkResponse bytes).Response = some s →
        s = "Success" ∨ s = "Invalid Length" ∨ s = "Failure" := by
  have hcases : c.val = 3 ∨ c.val = 4 ∨ c.val = 5 ∨ c.val = 6 ∨ c.val = 7 := by omega
  constructor
  · rcases hcases with hc | hc | hc | hc | hc <;>
      (simp only [DecodeDownlinkResponse, h0, hc]
       norm_num
       try split <;> rfl)
  · intro s hs
    rcases hcases with hc | hc | hc | hc | hc <;>
      (simp only [DecodeDownlinkResponse, h0, hc] at hs
       norm_num at hs
       try split at hs) <;>
      exact decodeStatus_mem _ s hs

/-- Witness for the amended C7 at command 0x03 with no further bytes. -/
theorem C7_response_fields_witness :
    (DecodeDownlinkResponse [(0x03 : Fin 256)]).ResponseType.isSome = true :=
  (C7_response_fields [(0x03 : Fin 256)] 0x03 rfl (by decide) (by decide)).1

/-- Claim C9: the `flags & 0x20` (tap) block of the uplink decoder reads
`bytes[Parse.i]` without advancing the cursor: for every parse state the
cursor offset after the tap block equals the offset before it, while the tap
field receives the byte at that offset. -/
theorem C9_tap_no_advance (flags : Nat) (st : UplinkRecord × Parse)
    (h : flags &&& 0x20 ≠ 0) :
    (tapBlock flags st).2.i = st.2.i
    ∧ (tapBlock flags st).1.tap = some st.2.bytes[st.2.i]? := by
  simp [tapBlock, h]

/-- Witness for C9 at bitmap 0x20 and an empty buffer. -/
theorem C9_tap_no_advance_witness :
    (tapBlock 0x20 ({}, ⟨[], 0⟩)).2.i = 0 :=
  (C9_tap_no_advance 0x20 ({}, ⟨[], 0⟩) (by decide)).1

/-- Claim C4: with the correct format tag and enough bytes for every selected
group, the decoded record contains exactly the fields whose bitmap bit is set
(bit 0 → vBat/vBus/vSys, bit 1 → version, bit 2 → boot, bit 3 → t/rh,
bit 4 → lux, bit 5 → tap; bits 6–7 play no role), unset bits consume zero
bytes, and the final cursor is 2 plus the consumed sizes of the set bits —
so bitmap 0x08 followed by exactly 4 bytes ends with the cursor at 6. -/
theorem C4_bitmap_fields (bytes : List (Fin 256)) (f : Fin 256)
    (h50 : bytes[0]? = some (0x50 : Fin 256))
    (hf : bytes[1]? = some f)
    (_hlen : 2 + uplinkNeeded f.val ≤ bytes.length) :
    (Decoder bytes 1 = some (DecodeResult.uplink (decodeUplinkBody bytes).1))
    ∧ ((decodeUplinkBody bytes).1.vBat.isSome ↔ f.val &&& 0x1 ≠ 0)
    ∧ ((decodeUplinkBody bytes).1.vBus.isSome ↔ f.val &&& 0x1 ≠ 0)
    ∧ ((decodeUplinkBody bytes).1.vSys.isSome ↔ f.val &&& 0x1 ≠ 0)
    ∧ ((decodeUplinkBody bytes).1.version.isSome ↔ f.val &&& 0x2 ≠ 0)
    ∧ ((decodeUplinkBody bytes).1.boot.isSome ↔ f.val &&& 0x4 ≠ 0)
    ∧ ((decodeUplinkBody bytes).1.t.isSome ↔ f.val &&& 0x8 ≠ 0)
    ∧ ((decodeUplinkBody bytes).1.rh.isSome ↔ f.val &&& 0x8 ≠ 0)
    ∧ ((decodeUplinkBody bytes).1.lux.isSome ↔ f.val &&& 0x10 ≠ 0)
    ∧ ((decodeUplinkBody bytes).1.tap.isSome ↔ f.val &&& 0x20 ≠ 0)
    ∧ (decodeUplinkBody bytes).2.i = 2 + uplinkConsumed f.val := by
  refine ⟨by simp [Decoder, h50], ?_⟩
  by_cases h1 : f.val % 2 = 1 <;> by_cases h2 : f.val &&& 0x2 ≠ 0 <;>
    by_cases h3 : f.val &&& 0x4 ≠ 0 <;> by_cases h4 : f.val &&& 0x8 ≠ 0 <;>
    by_cases h5 : f.val &&& 0x10 ≠ 0 <;> by_cases h6 : f.val &&& 0x20 ≠ 0 <;>
    simp [decodeUplinkBody, uplinkBlocks, voltBlock, versionBlock, bootBlock, trhBlock,
      luxBlock, tapBlock, uplinkConsumed, hf, h1, h2, h3, h4, h5, h6]

/-- Witness for C4: format tag, bitmap 0x08, four zero bytes — `t` and `rh`
are decoded and the final cursor is 6 (tag + bitmap + 4). -/
theorem C4_bitmap_fields_witness :
    (decodeUplinkBody [(0x50 : Fin 256), 0x08, 0, 0, 0, 0]).1.t.isSome = true
    ∧ (decodeUplinkBody [(0x50 : Fin 256), 0x08, 0, 0, 0, 0]).1.rh.isSome = true
    ∧ (decodeUplinkBody [(0x50 : Fin 256), 0x08, 0, 0, 0, 0]).1.lux.isSome = false
    ∧ (decodeUplinkBody [(0x50 : Fin 256), 0x08, 0, 0, 0, 0]).2.i = 6 := by
  have H := C4_bitmap_fields [(0x50 : Fin 256), 0x08, 0, 0, 0, 0] 0x08 rfl rfl (by decide)
  refine ⟨?_, ?_, ?_, ?_⟩
  · exact (H.2.2.2.2.2.2.1).mpr (by decide)
  · exact (H.2.2.2.2.2.2.2.1).mpr (by decide)
  · exact Bool.eq_false_iff.mpr (fun hc => absurd ((H.2.2.2.2.2.2.2.2.1).mp hc) (by decide))
  · rw [H.2.2.2.2.2.2.2.2.2.2]
    decide

/-- Claim C1 counterexample: the buffer `0x50 0x08` selects the t/rh group
(bitmap bit 3) but carries none of the 4 bytes that group requires; the
decoder nevertheless succeeds, returning a record whose `t` is NaN — a value
produced by reading past the end of the buffer — and whose `rh` is 0, with no
`BufferUnderrun` (or any other) failure result. -/
theorem C1_counterexample :
    Decoder [(0x50 : Fin 256), 0x08] 1
      = some (DecodeResult.uplink { t := some JSNum.nan, rh := some (JSNum.num 0) }) := by
  have f1 : ¬((100 : ℚ) < 0) := by norm_num
  have f2 : ¬((65535 : ℚ) < 0) := by norm_num
  have f3 : ¬((65535 : ℚ) = 0) := by norm_num
  have f4 : ((0x08 : Fin 256) : ℕ) = 8 := by decide
  have f5 : ((0x50 : Fin 256) : ℕ) = 80 := by decide
  have g0 : ¬((8 : ℕ) % 2 = 1) := by decide
  have g1 : ((8 : ℕ) &&& 2) = 0 := by decide
  have g2 : ((8 : ℕ) &&& 4) = 0 := by decide
  have g3 : ¬(((8 : ℕ) &&& 8) = 0) := by decide
  have g4 : ((8 : ℕ) &&& 16) = 0 := by decide
  have g5 : ((8 : ℕ) &&& 32) = 0 := by decide
  simp [Decoder, decodeUplinkBody, uplinkBlocks, voltBlock, versionBlock, bootBlock,
    trhBlock, luxBlock, tapBlock, DecodeI16, DecodeUflt16, i16OfRaw, uflt16OfRaw, DecodeU16,
    jsMul, jsDiv, JSNum.finQ, JSNum.isNeg, f1, f2, f3, f4, f5, g0, g1, g2, g3, g4, g5]

/-- Claim C1 amended: the uplink decoder performs no bounds checking at all.
For every bitmap with bit 3 set and a buffer that ends right after the bitmap
byte, the decode still succeeds (`isSome`) and the returned record's `t` field
is NaN, the value JavaScript arithmetic produces from reads past the end of
the buffer; no `BufferUnderrun` failure result exists in the code. -/
theorem C1_no_underrun_check (f : Fin 256) (hbit : f.val &&& 0x8 ≠ 0) :
    (Decoder [(0x50 : Fin 256), f] 1).isSome = true
    ∧ (decodeUplinkBody [(0x50 : Fin 256), f]).1.t = some JSNum.nan := by
  refine ⟨by simp [Decoder], ?_⟩
  rw [decodeUplinkBody_eq [(0x50 : Fin 256), f] f rfl, uplinkBlocks_t _ _ hbit,
    DecodeU16_oob]
  · rfl
  · have hpre := pre_trh_state f.val [(0x50 : Fin 256), f]
    rw [hpre.1]
    simpa using hpre.2

/-- Witness for the amended C1 at bitmap 0x08. -/
theorem C1_no_underrun_check_witness :
    (decodeUplinkBody [(0x50 : Fin 256), 0x08]).1.t = some JSNum.nan :=
  (C1_no_underrun_check 0x08 (by decide)).2

/-- Claim C10: whenever bitmap bit 3 is selected (with enough bytes present),
the decoded `rh` value is a rational in `[0, 100 * (4095/4096) / 65535]` —
about 0.0015, orders of magnitude below the nominal 0..100 percent range —
because `DecodeUflt16` returns at most `4095/4096` and the scaling divides by
65535 after multiplying by 100. -/
theorem C10_rh_range (bytes : List (Fin 256)) (f : Fin 256)
    (hf : bytes[1]? = some f) (hbit : f.val &&& 0x8 ≠ 0)
    (_hlen : 2 + uplinkNeeded f.val ≤ bytes.length) :
    ∃ q : ℚ, (decodeUplinkBody bytes).1.rh = some (JSNum.num q)
      ∧ 0 ≤ q ∧ q ≤ 100 * (4095 / 4096) / 65535 := by
  rw [decodeUplinkBody_eq bytes f hf, uplinkBlocks_rh _ _ hbit]
  obtain ⟨q0, hq0, hq0nn, hq0le⟩ := uflt16_bounds _ (fun v hv => DecodeU16_lt _ v hv)
  rw [hq0, rh_scale q0 hq0nn]
  refine ⟨q0 * 100 / 65535, rfl, by positivity, ?_⟩
  calc q0 * 100 / 65535 ≤ (4095 / 4096) * 100 / 65535 := by gcongr
    _ = 100 * (4095 / 4096) / 65535 := by ring

/-- Witness for C10: bitmap 0x08 with four zero bytes. -/
theorem C10_rh_range_witness :
    ∃ q : ℚ, (decodeUplinkBody [(0x50 : Fin 256), 0x08, 0, 0, 0, 0]).1.rh
        = some (JSNum.num q)
      ∧ 0 ≤ q ∧ q ≤ 100 * (4095 / 4096) / 65535 :=
  C10_rh_range [(0x50 : Fin 256), 0x08, 0, 0, 0, 0] 0x08 rfl (by decide) (by decide)

/-- Claim C3: `DecodeSflt24` decodes every 3-byte input with sign bit s,
7-bit exponent field E and 16-bit mantissa field M as: signed infinity
matching s when E = 0x7F and M = 0; NaN when E = 0x7F and M ≠ 0;
s * ((M + 0x10000)/0x10000) * 2^(E-63) for normal values 0 < E < 0x7F
(implicit bit added); and s * (M/0x10000) * 2^(1-63) for denormals E = 0
(no implicit bit, exponent treated as 1). -/
theorem C3_sflt24 (b0 b1 b2 : Fin 256) :
    (b0.val % 128 = 0x7F → b1.val * 256 + b2.val = 0 →
      (DecodeSflt24 ⟨[b0, b1, b2], 0⟩).1
        = (if 128 ≤ b0.val then JSNum.negInf else JSNum.posInf))
    ∧ (b0.val % 128 = 0x7F → b1.val * 256 + b2.val ≠ 0 →
      (DecodeSflt24 ⟨[b0, b1, b2], 0⟩).1 = JSNum.nan)
    ∧ (0 < b0.val % 128 → b0.val % 128 < 0x7F →
      (DecodeSflt24 ⟨[b0, b1, b2], 0⟩).1.toRat
        = some ((if 128 ≤ b0.val then (-1 : ℚ) else 1)
            * (((b1.val * 256 + b2.val : ℕ) : ℚ) + 0x10000) / 0x10000
            * (2 : ℚ) ^ (((b0.val % 128 : ℕ) : ℤ) - 63)))
    ∧ (b0.val % 128 = 0 →
      (DecodeSflt24 ⟨[b0, b1, b2], 0⟩).1.toRat
        = some ((if 128 ≤ b0.val then (-1 : ℚ) else 1)
            * ((b1.val * 256 + b2.val : ℕ) : ℚ) / 0x10000
            * (2 : ℚ) ^ ((1 : ℤ) - 63))) := by
  have hraw : (DecodeSflt24 ⟨[b0, b1, b2], 0⟩).1
      = sflt24OfRaw (some (b0.val * 65536 + b1.val * 256 + b2.val)) := rfl
  have hsign := raw24_sign b0 b1 b2
  have hexp := raw24_exp b0 b1 b2
  have hmant := raw24_mant b0 b1 b2
  refine ⟨?_, ?_, ?_, ?_⟩
  · intro hE hM
    rw [hraw]
    unfold sflt24OfRaw
    by_cases hs : 128 ≤ b0.val <;>
      simp [hsign, hexp, hmant, hE, hM, hs]
  · intro hE hM
    rw [hraw]
    unfold sflt24OfRaw
    by_cases hs : 128 ≤ b0.val <;>
      simp [hsign, hexp, hmant, hE, hM, hs]
  · intro hE1 hE2
    rw [hraw]
    unfold sflt24OfRaw
    simp only [Option.getD_some, hsign, hexp, hmant]
    set E := b0.val % 128 with hE
    set M := b1.val * 256 + b2.val with hM
    have hne127 : ¬(E = 127) := by omega
    have hne0 : E ≠ 0 := by omega
    have hMQ : (0:ℚ) ≤ (M : ℚ) := by positivity
    have hprod : ((2:ℚ) ^ ((E : ℤ) - 63) * (((M : ℚ) + 65536) / 65536)) ≠ 0 :=
      (mul_pos (by positivity) (by positivity)).ne'
    by_cases hs : 128 ≤ b0.val
    · norm_num [hne127, hne0, hs]
      rw [jsMul_num _ _ hprod, jsNeg_num _ hprod]
      simp only [JSNum.toRat, JSNum.finQ]
      ring_nf
    · norm_num [hne127, hne0, hs]
      rw [jsMul_num _ _ hprod]
      simp only [JSNum.toRat, JSNum.finQ]
      ring_nf
  · intro hE0
    rw [hraw]
    unfold sflt24OfRaw
    simp only [Option.getD_some, hsign, hexp, hmant, hE0]
    set M := b1.val * 256 + b2.val with hM
    by_cases hM0 : M = 0 <;> by_cases hs : 128 ≤ b0.val
    · norm_num [hM0, hs]
      rw [jsMul_num_zero _ _ (by norm_num) le_rfl (mul_zero _)]
      simp [jsNeg, JSNum.toRat, JSNum.finQ]
    · norm_num [hM0, hs]
      rw [jsMul_num_zero _ _ (by norm_num) le_rfl (mul_zero _)]
      simp [JSNum.toRat, JSNum.finQ]
    · norm_num [hs]
      have hMQ : (0:ℚ) < (M:ℚ) := by exact_mod_cast Nat.pos_of_ne_zero hM0
      have hprod : ((1:ℚ)/4611686018427387904) * ((M:ℚ)/65536) ≠ 0 :=
        (mul_pos (by norm_num) (div_pos hMQ (by norm_num))).ne'
      rw [jsMul_num _ _ hprod, jsNeg_num _ hprod]
      simp only [JSNum.toRat, JSNum.finQ]
      ring_nf
    · norm_num [hs]
      have hMQ : (0:ℚ) < (M:ℚ) := by exact_mod_cast Nat.pos_of_ne_zero hM0
      have hprod : ((1:ℚ)/4611686018427387904) * ((M:ℚ)/65536) ≠ 0 :=
        (mul_pos (by norm_num) (div_pos hMQ (by norm_num))).ne'
      rw [jsMul_num _ _ hprod]
      simp only [JSNum.toRat, JSNum.finQ]
      ring_nf

/-- Witness for C3: byte pattern 0xFF 0x00 0x00 (sign set, E = 0x7F, M = 0)
decodes to negative infinity. -/
theorem C3_sflt24_witness :
    (DecodeSflt24 ⟨[(255 : Fin 256), 0, 0], 0⟩).1 = JSNum.negInf := by
  have h := (C3_sflt24 255 0 0).1 (by decide) (by decide)
  rw [if_pos (by decide : 128 ≤ (255 : Fin 256).val)] at h
  exact h

/-- Claim C6 counterexample: at t = 90 °F, rh = 50 % the simple-formula
estimate is 91.05, so `tHeatEasy + t = 181.05` fails the `< 160` sum-average
check and the computation does NOT take the simple-formula branch: the result
returned by `CalculateHeatIndex` is not the simple-formula value. -/
theorem C6_counterexample :
    tHeatEasy 90 50 + 90 = 181.05
    ∧ ¬(tHeatEasy 90 50 + 90 < 160)
    ∧ CalculateHeatIndex 90 50 ≠ some (tHeatEasy 90 50) := by
  refine ⟨by rw [tHeatEasy_90_50]; norm_num, by rw [tHeatEasy_90_50]; norm_num, ?_⟩
  rw [heatIndex_90_50_eval, tHeatEasy_90_50]
  intro h
  have := Option.some.inj h
  norm_num at this

/-- Claim C6 amended: at t = 90 °F, rh = 50 % the sum-average check routes the
computation to the regression-polynomial branch (the simple estimate 91.05
gives `tHeatEasy + t = 181.05 ≥ 160`), no adjustment term applies, and the
polynomial returns exactly 94.5969412 ≈ 94.6 °F. -/
theorem C6_heat_index_90_50 :
    CalculateHeatIndex 90 50 = some 94.5969412
    ∧ ¬(tHeatEasy 90 50 + 90 < 160)
    ∧ |(94.5969412 : ℝ) - 94.6| < 1 / 10 :=
  ⟨heatIndex_90_50_eval, by rw [tHeatEasy_90_50]; norm_num, by norm_num [abs_lt]⟩

end Catena5230
